import Mathlib

/-!
Verification of the comet-watcher file processor (src/main.py).

The Python program keeps two in-memory dictionaries, keyed by strings:
the result store (all_results) and the skipped store (skipped_records).
Each dictionary is modelled as an insertion-ordered association list,
which matches Python dict semantics: assignment to an existing key
replaces the value in place, assignment to a fresh key appends, and
deletion removes the entry.

Floating point scores are modelled as exact rationals; Python round
(banker's rounding, round half to even) is modelled by pyRound.
Python hash of a string is an unspecified deterministic function within
one process; it is modelled by contentHash, a fixed deterministic
function with contentHash of the empty string equal to 0, matching the
Python fact that hash of the empty string is 0.  All general theorems
below use only determinism of contentHash, never its particular values.

A line of a persisted jsonl log is modelled as an Option of the typed
record: some r is a line that json-decodes to r, none is a line whose
decoding raises JSONDecodeError (json.dumps followed by json.loads is
the identity on these flat records, so serialisation is left implicit).

Exceptions are modelled by Except Unit: the file read passed to
process_file and the result of the external scorer are Except values,
and the try/except wrapper of process_file turns any error into a
no-op on the state (the Python handler only prints).
-/

/-- Insertion-ordered association list standing for a Python dict with
string keys. -/
abbrev Store (α : Type) := List (String × α)

/-- Dictionary lookup: value of the first (and, under key nodup, only)
entry for the key. -/
def Store.lookup {α : Type} (s : Store α) (k : String) : Option α :=
  match s with
  | [] => none
  | (k', v) :: rest => if k' = k then some v else Store.lookup rest k

/-- Python dict assignment: replace the value in place when the key is
present, append a new entry otherwise. -/
def Store.insert {α : Type} (s : Store α) (k : String) (v : α) : Store α :=
  match s with
  | [] => [(k, v)]
  | (k', v') :: rest =>
    if k' = k then (k, v) :: rest else (k', v') :: Store.insert rest k v

/-- Python del: remove the entry for the key. -/
def Store.erase {α : Type} (s : Store α) (k : String) : Store α :=
  s.filter (fun p => p.1 ≠ k)

/-- Values of the dictionary in insertion order (dict.values()). -/
def Store.values {α : Type} (s : Store α) : List α :=
  s.map Prod.snd

/-- Keys of the dictionary in insertion order (dict.keys()). -/
def Store.keys {α : Type} (s : Store α) : List String :=
  s.map Prod.fst

/-- Python round half to even on a rational, as used by round(x, 4)
after scaling. -/
def pyRound (q : ℚ) : ℤ :=
  let f := ⌊q⌋
  let frac := q - (f : ℚ)
  if frac < 1/2 then f
  else if 1/2 < frac then f + 1
  else if f % 2 = 0 then f else f + 1

/-- round(score, 4) from the source: round half to even at four decimal
digits. -/
def roundQ4 (q : ℚ) : ℚ :=
  (pyRound (q * 10000) : ℚ) / 10000

/-- WARNING_THRESHOLD from the configuration block (0.8). -/
def WARNING_THRESHOLD : ℚ := 0.8

/-- Model of Python hash on strings: a fixed deterministic function.
Like Python hash, it maps the empty string to 0. -/
def contentHash (s : String) : ℤ :=
  s.data.foldl (fun a c => a * 31 + (c.toNat : ℤ)) 0

/-- Composite key of a result record, from the f-string
file_key, colon, hash of source concatenated with mt_output
(lines 56-57 and 217 of main.py). -/
def result_key (file src mt : String) : String :=
  file ++ ":" ++ toString (contentHash (src ++ mt))

/-- os.path.basename for slash-separated paths: everything after the
last slash. -/
def basename (p : String) : String :=
  ⟨(p.data.reverse.takeWhile (fun c => c ≠ '/')).reverse⟩

/-- Python str.strip: drop leading and trailing whitespace. -/
def pyStrip (s : String) : String :=
  ⟨((s.data.dropWhile Char.isWhitespace).reverse.dropWhile
      Char.isWhitespace).reverse⟩

/-- The list comprehension of process_file line 187: strip every line
and keep the non-blank ones. -/
def nonBlankLines (raw : List String) : List String :=
  (raw.map pyStrip).filter (fun l => l ≠ "")

/-- One record of the result store (lines 218-225 of main.py). -/
structure ResultRecord where
  file : String
  source : String
  mt_output : String
  reference : Option String
  comet_score : ℚ
  warning : Bool
deriving DecidableEq, Repr

/-- One record of the skipped store (lines 194-198 of main.py). -/
structure SkippedRecord where
  file : String
  reason : String
  lines : List String
deriving DecidableEq, Repr

/-- The two process-wide dictionaries of main.py. -/
structure SysState where
  all_results : Store ResultRecord
  skipped_records : Store SkippedRecord
deriving DecidableEq, Repr

/-- The scorer is the external COMET model: a function from the triple
(src, mt, optional ref) to a score, which may raise. -/
abbrev Scorer := String → String → Option String → Except Unit ℚ

/-- process_file from main.py.  The whole body runs inside try/except
Exception, whose handler only prints, so a failing read and a failing
scorer call both leave the state unchanged.  On fewer than two
non-blank lines the skipped record is upserted under the basename; on
a valid file the result record is upserted under the composite key and
any skipped entry under the basename is deleted. -/
def process_file (scorer : Scorer) (st : SysState) (file_path : String)
    (readResult : Except Unit (List String)) : SysState :=
  match readResult with
  | .error _ => st
  | .ok raw =>
    let file_basename := basename file_path
    match nonBlankLines raw with
    | src :: mt :: rest =>
      let ref : Option String := rest.head?
      match scorer src mt ref with
      | .error _ => st
      | .ok score =>
        let score_rounded := roundQ4 score
        let record_key := result_key file_basename src mt
        let record : ResultRecord :=
          { file := file_basename
            source := src
            mt_output := mt
            reference := ref
            comet_score := score_rounded
            warning := decide (score_rounded < WARNING_THRESHOLD) }
        { all_results := st.all_results.insert record_key record
          skipped_records :=
            if (st.skipped_records.lookup file_basename).isSome then
              st.skipped_records.erase file_basename
            else st.skipped_records }
    | short =>
      { st with
        skipped_records := st.skipped_records.insert file_basename
          { file := file_basename
            reason := "Insufficient lines"
            lines := short } }

/-- Loop body of _read_jsonl over the result log, with the records
dictionary as accumulator: lines that fail to decode are skipped with
a printed message, decoded records are inserted under the key rebuilt
from the record fields (lines 48-60 of main.py). -/
def readResultsFrom (acc : Store ResultRecord) :
    List (Option ResultRecord) → Store ResultRecord
  | [] => acc
  | none :: t => readResultsFrom acc t
  | some r :: t =>
    readResultsFrom (acc.insert (result_key r.file r.source r.mt_output) r) t

/-- The _read_jsonl loader applied to the result log. -/
def read_jsonl_results (ls : List (Option ResultRecord)) : Store ResultRecord :=
  readResultsFrom [] ls

/-- Loop body of _read_jsonl over the skipped log.  A skipped record
has no source and no mt_output field, so record.get falls back to the
empty string for both and the rebuilt key is the file name, a colon,
and the hash of the empty string (lines 54-57 of main.py applied to a
record with fields file, reason, lines). -/
def readSkippedFrom (acc : Store SkippedRecord) :
    List (Option SkippedRecord) → Store SkippedRecord
  | [] => acc
  | none :: t => readSkippedFrom acc t
  | some r :: t =>
    readSkippedFrom
      (acc.insert (r.file ++ ":" ++ toString (contentHash ("" ++ ""))) r) t

/-- The _read_jsonl loader applied to the skipped log. -/
def read_jsonl_skipped (ls : List (Option SkippedRecord)) : Store SkippedRecord :=
  readSkippedFrom [] ls

/-- The _write_jsonl writer (lines 63-66 of main.py): one line per
stored record, in dictionary order; every written line decodes back to
the record it was written from. -/
def write_jsonl {α : Type} (d : Store α) : List (Option α) :=
  d.values.map some

/-- The three summary numbers of the HTML report (lines 74-76 of
main.py): total count of results, count of warnings, and the average
score, rounded to four digits, or 0.0 for an empty store. -/
structure ReportKPIs where
  total : ℕ
  warn_count : ℕ
  avg : ℚ
deriving DecidableEq, Repr

/-- KPI computation of generate_html_report (lines 70-76 of main.py). -/
def generate_html_report (st : SysState) : ReportKPIs :=
  let results := st.all_results.values
  let warnings := results.filter (fun r => r.warning)
  let total := results.length
  let avg : ℚ :=
    if total ≠ 0 then roundQ4 ((results.map (fun r => r.comet_score)).sum / total)
    else 0
  { total := total, warn_count := warnings.length, avg := avg }


/-! ### Association list lemmas -/

theorem Store.lookup_insert_self {α : Type} (s : Store α) (k : String) (v : α) :
    (s.insert k v).lookup k = some v := by
  induction s with
  | nil => simp [Store.insert, Store.lookup]
  | cons p rest ih =>
    by_cases h : p.1 = k
    · simp_all [Store.insert, Store.lookup]
    · simp_all [Store.insert, Store.lookup]

theorem Store.lookup_insert_ne {α : Type} (s : Store α) (k k' : String) (v : α)
    (h : k' ≠ k) : (s.insert k v).lookup k' = s.lookup k' := by
  induction s with
  | nil => simp [Store.insert, Store.lookup, Ne.symm h]
  | cons p rest ih =>
    by_cases hp : p.1 = k
    · simp_all [Store.insert, Store.lookup, Ne.symm h]
    · simp_all [Store.insert, Store.lookup]

theorem Store.insert_eq_self_of_lookup {α : Type} (s : Store α) (k : String)
    (v : α) (h : s.lookup k = some v) : s.insert k v = s := by
  induction s with
  | nil => simp [Store.lookup] at h
  | cons p rest ih =>
    by_cases hp : p.1 = k
    · cases p
      simp_all [Store.insert, Store.lookup]
    · simp_all [Store.insert, Store.lookup]

theorem Store.length_insert_of_lookup_isSome {α : Type} (s : Store α)
    (k : String) (v : α) (h : (s.lookup k).isSome) :
    (s.insert k v).length = s.length := by
  induction s with
  | nil => simp [Store.lookup] at h
  | cons p rest ih =>
    by_cases hp : p.1 = k
    · simp [Store.insert, hp]
    · simp_all [Store.insert, Store.lookup]

theorem Store.length_insert_of_lookup_eq_none {α : Type} (s : Store α)
    (k : String) (v : α) (h : s.lookup k = none) :
    (s.insert k v).length = s.length + 1 := by
  induction s with
  | nil => simp [Store.insert]
  | cons p rest ih =>
    by_cases hp : p.1 = k
    · simp [Store.lookup, hp] at h
    · simp_all [Store.insert, Store.lookup]

theorem Store.lookup_erase_self {α : Type} (s : Store α) (k : String) :
    (s.erase k).lookup k = none := by
  induction s with
  | nil => simp [Store.erase, Store.lookup]
  | cons p rest ih =>
    by_cases hp : p.1 = k
    · simp_all [Store.erase, Store.lookup]
    · simp_all [Store.erase, Store.lookup, List.filter]

theorem Store.lookup_erase_ne {α : Type} (s : Store α) (k k' : String)
    (h : k' ≠ k) : (s.erase k).lookup k' = s.lookup k' := by
  induction s with
  | nil => simp [Store.erase]
  | cons p rest ih =>
    by_cases hp : p.1 = k
    · simp_all [Store.erase, Store.lookup, List.filter]
      simp [hp, Ne.symm h]
    · simp_all [Store.erase, Store.lookup, List.filter]

/-! ### Unfolding lemmas for the two branches of process_file -/

/-- The record built on the valid path of process_file. -/
def builtRecord (file_path src mt : String) (ref : Option String) (q : ℚ) :
    ResultRecord :=
  { file := basename file_path
    source := src
    mt_output := mt
    reference := ref
    comet_score := roundQ4 q
    warning := decide (roundQ4 q < WARNING_THRESHOLD) }

theorem process_file_valid (scorer : Scorer) (st : SysState)
    (file_path : String) (raw : List String) (src mt : String)
    (rest : List String) (q : ℚ)
    (hl : nonBlankLines raw = src :: mt :: rest)
    (hs : scorer src mt rest.head? = .ok q) :
    process_file scorer st file_path (.ok raw) =
      { all_results :=
          st.all_results.insert (result_key (basename file_path) src mt)
            (builtRecord file_path src mt rest.head? q)
        skipped_records :=
          if (st.skipped_records.lookup (basename file_path)).isSome then
            st.skipped_records.erase (basename file_path)
          else st.skipped_records } := by
  simp only [process_file, hl, hs, builtRecord]

theorem process_file_skip (scorer : Scorer) (st : SysState)
    (file_path : String) (raw : List String)
    (hl : (nonBlankLines raw).length < 2) :
    process_file scorer st file_path (.ok raw) =
      { st with
        skipped_records :=
          st.skipped_records.insert (basename file_path)
            { file := basename file_path
              reason := "Insufficient lines"
              lines := nonBlankLines raw } } := by
  match h : nonBlankLines raw with
  | [] => simp only [process_file, h]
  | [a] => simp only [process_file, h]
  | a :: b :: t => rw [h] at hl; simp at hl; omega

theorem process_file_read_error (scorer : Scorer) (st : SysState)
    (file_path : String) :
    process_file scorer st file_path (.error ()) = st := by
  simp only [process_file]

theorem process_file_scorer_error (scorer : Scorer) (st : SysState)
    (file_path : String) (raw : List String) (src mt : String)
    (rest : List String)
    (hl : nonBlankLines raw = src :: mt :: rest)
    (hs : scorer src mt rest.head? = .error ()) :
    process_file scorer st file_path (.ok raw) = st := by
  simp only [process_file, hl, hs]

/-! ### Claim theorems: processing branches -/

/-- C2: every result record produced by processing a valid file stores
the scorer output rounded to four digits and a warning flag that holds
exactly when the stored score is below the threshold; with threshold
0.8 a stored score of 0.7999 gives warning true and a stored score of
0.8000 gives warning false. -/
theorem c2_warning_matches_threshold (scorer : Scorer) (st : SysState)
    (file_path : String) (raw : List String) (src mt : String)
    (rest : List String) (q : ℚ)
    (hl : nonBlankLines raw = src :: mt :: rest)
    (hs : scorer src mt rest.head? = .ok q) :
    ((process_file scorer st file_path (.ok raw)).all_results.lookup
        (result_key (basename file_path) src mt)) =
      some (builtRecord file_path src mt rest.head? q)
    ∧ (builtRecord file_path src mt rest.head? q).comet_score = roundQ4 q
    ∧ ((builtRecord file_path src mt rest.head? q).warning = true ↔
        roundQ4 q < WARNING_THRESHOLD)
    ∧ (builtRecord file_path src mt none (0.7999 : ℚ)).comet_score = 0.7999
    ∧ (builtRecord file_path src mt none (0.7999 : ℚ)).warning = true
    ∧ (builtRecord file_path src mt none (0.8 : ℚ)).comet_score = 0.8
    ∧ (builtRecord file_path src mt none (0.8 : ℚ)).warning = false := by
  have h4 : roundQ4 (0.7999 : ℚ) = 0.7999 := by
    unfold roundQ4 pyRound; norm_num
  have h5 : roundQ4 (0.8 : ℚ) = 0.8 := by
    unfold roundQ4 pyRound; norm_num
  refine ⟨?_, rfl, ?_, ?_, ?_, ?_, ?_⟩
  · rw [process_file_valid scorer st file_path raw src mt rest q hl hs]
    exact Store.lookup_insert_self _ _ _
  · simp [builtRecord]
  · simp [builtRecord, h4]
  · simp only [builtRecord, h4]
    rw [decide_eq_true_eq]
    unfold WARNING_THRESHOLD; norm_num
  · simp [builtRecord, h5]
  · simp only [builtRecord, h5]
    rw [decide_eq_false_iff_not]
    unfold WARNING_THRESHOLD; norm_num

/-- Witness for C2 at a concrete valid file. -/
theorem c2_witness :
    (nonBlankLines ["hola ", "hello"] = "hola" :: "hello" :: []
      ∧ (fun _ _ _ => Except.ok (9/10 : ℚ) : Scorer) "hola" "hello"
          (List.head? ([] : List String)) = .ok (9/10 : ℚ))
    ∧ (((process_file (fun _ _ _ => Except.ok (9/10 : ℚ)) ⟨[], []⟩
          ("a.txt") (.ok ["hola ", "hello"])).all_results.lookup
            (result_key (basename ("a.txt")) ("hola") ("hello"))) =
        some (builtRecord ("a.txt") ("hola") ("hello") none (9/10 : ℚ))
      ∧ (builtRecord ("a.txt") ("hola") ("hello") none (9/10 : ℚ)).comet_score =
          roundQ4 (9/10 : ℚ)
      ∧ ((builtRecord ("a.txt") ("hola") ("hello") none (9/10 : ℚ)).warning = true ↔
          roundQ4 (9/10 : ℚ) < WARNING_THRESHOLD)
      ∧ (builtRecord ("a.txt") ("hola") ("hello") none (0.7999 : ℚ)).comet_score = 0.7999
      ∧ (builtRecord ("a.txt") ("hola") ("hello") none (0.7999 : ℚ)).warning = true
      ∧ (builtRecord ("a.txt") ("hola") ("hello") none (0.8 : ℚ)).comet_score = 0.8
      ∧ (builtRecord ("a.txt") ("hola") ("hello") none (0.8 : ℚ)).warning = false) :=
  ⟨⟨by decide, rfl⟩,
    c2_warning_matches_threshold (fun _ _ _ => Except.ok (9/10 : ℚ)) ⟨[], []⟩
      ("a.txt") ["hola ", "hello"] ("hola") ("hello") [] (9/10 : ℚ)
      (by decide) rfl⟩

/-- C9: for a file with exactly two non-blank trimmed lines the
produced record has reference none, not the empty string. -/
theorem c9_reference_none_for_two_lines (scorer : Scorer) (st : SysState)
    (file_path : String) (raw : List String) (src mt : String) (q : ℚ)
    (hl : nonBlankLines raw = [src, mt])
    (hs : scorer src mt none = .ok q) :
    ((process_file scorer st file_path (.ok raw)).all_results.lookup
        (result_key (basename file_path) src mt)).map
      (fun r => r.reference) = some none := by
  have h := process_file_valid scorer st file_path raw src mt [] q hl hs
  rw [h]
  simp only [Store.lookup_insert_self, Option.map_some]
  rfl

/-- Witness for C9 at a concrete two-line file. -/
theorem c9_witness :
    (nonBlankLines ["hola", "hello"] = ["hola", "hello"]
      ∧ (fun _ _ _ => Except.ok (1/2 : ℚ) : Scorer) "hola" "hello" none =
          .ok (1/2 : ℚ))
    ∧ ((process_file (fun _ _ _ => Except.ok (1/2 : ℚ)) ⟨[], []⟩
          ("b.txt") (.ok ["hola", "hello"])).all_results.lookup
            (result_key (basename ("b.txt")) ("hola") ("hello"))).map
        (fun r => r.reference) = some none :=
  ⟨⟨by decide, rfl⟩,
    c9_reference_none_for_two_lines (fun _ _ _ => Except.ok (1/2 : ℚ)) ⟨[], []⟩
      ("b.txt") ["hola", "hello"] ("hola") ("hello") (1/2 : ℚ) (by decide) rfl⟩

/-- C10: on the skipped path the result store is left completely
unchanged while the file is recorded in the skipped store. -/
theorem c10_skip_leaves_results_unchanged (scorer : Scorer) (st : SysState)
    (file_path : String) (raw : List String)
    (hl : (nonBlankLines raw).length < 2) :
    (process_file scorer st file_path (.ok raw)).all_results = st.all_results
    ∧ (process_file scorer st file_path (.ok raw)).skipped_records.lookup
        (basename file_path) =
      some { file := basename file_path
             reason := "Insufficient lines"
             lines := nonBlankLines raw } := by
  rw [process_file_skip scorer st file_path raw hl]
  exact ⟨rfl, Store.lookup_insert_self _ _ _⟩

/-- Witness for C10: a one-line file processed on top of a state that
already holds a result record for an earlier valid version. -/
theorem c10_witness :
    ((nonBlankLines ["solo"]).length < 2)
    ∧ ((process_file (fun _ _ _ => Except.ok (1/2 : ℚ))
          ⟨[(result_key ("c.txt") ("a") ("b"), builtRecord ("c.txt") ("a") ("b") none (1/2 : ℚ))], []⟩
          ("c.txt") (.ok ["solo"])).all_results =
        [(result_key ("c.txt") ("a") ("b"), builtRecord ("c.txt") ("a") ("b") none (1/2 : ℚ))]
      ∧ (process_file (fun _ _ _ => Except.ok (1/2 : ℚ))
          ⟨[(result_key ("c.txt") ("a") ("b"), builtRecord ("c.txt") ("a") ("b") none (1/2 : ℚ))], []⟩
          ("c.txt") (.ok ["solo"])).skipped_records.lookup (basename ("c.txt")) =
        some { file := basename ("c.txt")
               reason := "Insufficient lines"
               lines := nonBlankLines ["solo"] }) :=
  ⟨by decide,
    c10_skip_leaves_results_unchanged (fun _ _ _ => Except.ok (1/2 : ℚ))
      ⟨[(result_key ("c.txt") ("a") ("b"), builtRecord ("c.txt") ("a") ("b") none (1/2 : ℚ))], []⟩
      ("c.txt") ["solo"] (by decide)⟩

/-- Counterexample to C3 as stated: the reason string written by the
code is capitalised Insufficient lines, not the claimed lowercase
insufficient lines. -/
theorem c3_counterexample :
    ((process_file (fun _ _ _ => Except.ok (0 : ℚ)) ⟨[], []⟩
        ("a.txt") (.ok ["hello"])).skipped_records.lookup ("a.txt")).map
      (fun r => r.reason) = some ("Insufficient lines")
    ∧ ((process_file (fun _ _ _ => Except.ok (0 : ℚ)) ⟨[], []⟩
        ("a.txt") (.ok ["hello"])).skipped_records.lookup ("a.txt")).map
      (fun r => r.reason) ≠ some ("insufficient lines") := by
  constructor
  · decide
  · decide

/-- C3 (amended): a file with fewer than two non-blank trimmed lines
produces no result record and upserts a skipped record under the
basename whose reason string is Insufficient lines (capitalised, as
written by the code) and whose lines field holds exactly the non-blank
trimmed lines; no exception reaches the caller (the model is a total
function on states). -/
theorem c3_insufficient_lines_skipped (scorer : Scorer) (st : SysState)
    (file_path : String) (raw : List String)
    (hl : (nonBlankLines raw).length < 2) :
    (process_file scorer st file_path (.ok raw)).all_results = st.all_results
    ∧ (process_file scorer st file_path (.ok raw)).skipped_records =
        st.skipped_records.insert (basename file_path)
          { file := basename file_path
            reason := "Insufficient lines"
            lines := nonBlankLines raw } := by
  rw [process_file_skip scorer st file_path raw hl]
  exact ⟨rfl, rfl⟩

/-- Witness for C3 at a concrete one-line file. -/
theorem c3_witness :
    ((nonBlankLines ["  hello  ", " "]).length < 2)
    ∧ ((process_file (fun _ _ _ => Except.ok (0 : ℚ)) ⟨[], []⟩
          ("d.txt") (.ok ["  hello  ", " "])).all_results = []
      ∧ (process_file (fun _ _ _ => Except.ok (0 : ℚ)) ⟨[], []⟩
          ("d.txt") (.ok ["  hello  ", " "])).skipped_records =
        Store.insert [] (basename ("d.txt"))
          { file := basename ("d.txt")
            reason := "Insufficient lines"
            lines := nonBlankLines ["  hello  ", " "] }) :=
  ⟨by decide,
    c3_insufficient_lines_skipped (fun _ _ _ => Except.ok (0 : ℚ)) ⟨[], []⟩
      ("d.txt") ["  hello  ", " "] (by decide)⟩

/-- C5: reprocessing the same path with identical content inserts under
the identical composite key and overwrites the existing record, so the
result store is unchanged and in particular its size does not grow. -/
theorem c5_reprocess_same_content_stable (scorer : Scorer) (st : SysState)
    (file_path : String) (raw : List String) (src mt : String)
    (rest : List String) (q : ℚ)
    (hl : nonBlankLines raw = src :: mt :: rest)
    (hs : scorer src mt rest.head? = .ok q) :
    (process_file scorer (process_file scorer st file_path (.ok raw))
        file_path (.ok raw)).all_results =
      (process_file scorer st file_path (.ok raw)).all_results
    ∧ (process_file scorer (process_file scorer st file_path (.ok raw))
        file_path (.ok raw)).all_results.length =
      (process_file scorer st file_path (.ok raw)).all_results.length := by
  have h2 := process_file_valid scorer (process_file scorer st file_path (.ok raw))
    file_path raw src mt rest q hl hs
  have h1 := process_file_valid scorer st file_path raw src mt rest q hl hs
  have hmain : (process_file scorer (process_file scorer st file_path (.ok raw))
      file_path (.ok raw)).all_results =
      (process_file scorer st file_path (.ok raw)).all_results := by
    rw [h2]
    exact Store.insert_eq_self_of_lookup _ _ _
      (by rw [h1]; exact Store.lookup_insert_self _ _ _)
  exact ⟨hmain, by rw [hmain]⟩

/-- Witness for C5 at a concrete valid file processed twice. -/
theorem c5_witness :
    (nonBlankLines ["x", "y"] = "x" :: "y" :: []
      ∧ (fun _ _ _ => Except.ok (1/4 : ℚ) : Scorer) "x" "y"
          (List.head? ([] : List String)) = .ok (1/4 : ℚ))
    ∧ ((process_file (fun _ _ _ => Except.ok (1/4 : ℚ))
          (process_file (fun _ _ _ => Except.ok (1/4 : ℚ)) ⟨[], []⟩
            ("e.txt") (.ok ["x", "y"]))
          ("e.txt") (.ok ["x", "y"])).all_results =
        (process_file (fun _ _ _ => Except.ok (1/4 : ℚ)) ⟨[], []⟩
          ("e.txt") (.ok ["x", "y"])).all_results
      ∧ (process_file (fun _ _ _ => Except.ok (1/4 : ℚ))
          (process_file (fun _ _ _ => Except.ok (1/4 : ℚ)) ⟨[], []⟩
            ("e.txt") (.ok ["x", "y"]))
          ("e.txt") (.ok ["x", "y"])).all_results.length =
        (process_file (fun _ _ _ => Except.ok (1/4 : ℚ)) ⟨[], []⟩
          ("e.txt") (.ok ["x", "y"])).all_results.length) :=
  ⟨⟨by decide, rfl⟩,
    c5_reprocess_same_content_stable (fun _ _ _ => Except.ok (1/4 : ℚ)) ⟨[], []⟩
      ("e.txt") ["x", "y"] ("x") ("y") [] (1/4 : ℚ) (by decide) rfl⟩

/-- C7: an exception during the file read or during the scorer call is
caught by the try/except wrapper of process_file and the call leaves
both stores exactly as they were: the state is returned unchanged. -/
theorem c7_exception_leaves_state_unchanged (scorer : Scorer) (st : SysState)
    (file_path : String) (raw : List String) (src mt : String)
    (rest : List String)
    (hl : nonBlankLines raw = src :: mt :: rest)
    (hs : scorer src mt rest.head? = .error ()) :
    process_file scorer st file_path (.error ()) = st
    ∧ process_file scorer st file_path (.ok raw) = st :=
  ⟨process_file_read_error scorer st file_path,
   process_file_scorer_error scorer st file_path raw src mt rest hl hs⟩

/-- Witness for C7 with a concrete always-failing scorer. -/
theorem c7_witness :
    (nonBlankLines ["x", "y"] = "x" :: "y" :: []
      ∧ (fun _ _ _ => Except.error () : Scorer) "x" "y"
          (List.head? ([] : List String)) = .error ())
    ∧ (process_file (fun _ _ _ => Except.error ())
          ⟨[], [(("f.txt" : String), ⟨"f.txt", "Insufficient lines", []⟩)]⟩
          ("f.txt") (.error ()) =
        ⟨[], [(("f.txt" : String), ⟨"f.txt", "Insufficient lines", []⟩)]⟩
      ∧ process_file (fun _ _ _ => Except.error ())
          ⟨[], [(("f.txt" : String), ⟨"f.txt", "Insufficient lines", []⟩)]⟩
          ("f.txt") (.ok ["x", "y"]) =
        ⟨[], [(("f.txt" : String), ⟨"f.txt", "Insufficient lines", []⟩)]⟩) :=
  ⟨⟨by decide, rfl⟩,
    c7_exception_leaves_state_unchanged (fun _ _ _ => Except.error ())
      ⟨[], [(("f.txt" : String), ⟨"f.txt", "Insufficient lines", []⟩)]⟩
      ("f.txt") ["x", "y"] ("x") ("y") [] (by decide) rfl⟩

/-- C8: the Total evaluated KPI of the report equals the number of
distinct keys of the result store, and the Average score KPI is the
arithmetic mean of all stored scores rounded to four digits, with 0.0
for an empty store. -/
theorem c8_report_kpis (st : SysState)
    (h : (st.all_results.keys).Nodup) :
    (generate_html_report st).total = (st.all_results.keys).toFinset.card
    ∧ (st.all_results = [] → (generate_html_report st).avg = 0)
    ∧ (st.all_results ≠ [] →
        (generate_html_report st).avg =
          roundQ4 ((st.all_results.values.map (fun r => r.comet_score)).sum /
            (st.all_results.length : ℚ))) := by
  refine ⟨?_, ?_, ?_⟩
  · have hcard : (st.all_results.keys).toFinset.card =
        (st.all_results.keys).length := List.toFinset_card_of_nodup h
    rw [hcard]
    simp [generate_html_report, Store.keys, Store.values]
  · intro he
    simp [generate_html_report, he, Store.values]
  · intro he
    have hlen : List.length st.all_results ≠ 0 := by
      simpa [List.length_eq_zero] using he
    simp only [generate_html_report, Store.values, List.length_map]
    rw [if_pos hlen]

/-- Witness for C8 at a concrete one-record store. -/
theorem c8_witness :
    ((Store.keys [(result_key ("g.txt") ("a") ("b"),
        builtRecord ("g.txt") ("a") ("b") none (1/2 : ℚ))]).Nodup)
    ∧ ((generate_html_report
          ⟨[(result_key ("g.txt") ("a") ("b"),
            builtRecord ("g.txt") ("a") ("b") none (1/2 : ℚ))], []⟩).total =
        (Store.keys [(result_key ("g.txt") ("a") ("b"),
          builtRecord ("g.txt") ("a") ("b") none (1/2 : ℚ))]).toFinset.card
      ∧ ([(result_key ("g.txt") ("a") ("b"),
            builtRecord ("g.txt") ("a") ("b") none (1/2 : ℚ))] =
            ([] : Store ResultRecord) →
          (generate_html_report
            ⟨[(result_key ("g.txt") ("a") ("b"),
              builtRecord ("g.txt") ("a") ("b") none (1/2 : ℚ))], []⟩).avg = 0)
      ∧ ([(result_key ("g.txt") ("a") ("b"),
            builtRecord ("g.txt") ("a") ("b") none (1/2 : ℚ))] ≠
            ([] : Store ResultRecord) →
          (generate_html_report
            ⟨[(result_key ("g.txt") ("a") ("b"),
              builtRecord ("g.txt") ("a") ("b") none (1/2 : ℚ))], []⟩).avg =
          roundQ4 (((Store.values [(result_key ("g.txt") ("a") ("b"),
              builtRecord ("g.txt") ("a") ("b") none (1/2 : ℚ))]).map
              (fun r => r.comet_score)).sum /
            (([(result_key ("g.txt") ("a") ("b"),
              builtRecord ("g.txt") ("a") ("b") none (1/2 : ℚ))] :
                Store ResultRecord).length : ℚ)))) :=
  ⟨by decide,
    c8_report_kpis
      ⟨[(result_key ("g.txt") ("a") ("b"),
        builtRecord ("g.txt") ("a") ("b") none (1/2 : ℚ))], []⟩ (by decide)⟩

/-! ### Persistence round-trip -/

theorem Store.insert_of_lookup_eq_none {α : Type} (s : Store α) (k : String)
    (v : α) (h : s.lookup k = none) : s.insert k v = s ++ [(k, v)] := by
  induction s with
  | nil => simp [Store.insert]
  | cons p rest ih =>
    by_cases hp : p.1 = k
    · simp [Store.lookup, hp] at h
    · simp_all [Store.insert, Store.lookup]

theorem Store.lookup_append {α : Type} (a b : Store α) (k : String) :
    (a ++ b).lookup k =
      match a.lookup k with
      | some v => some v
      | none => b.lookup k := by
  induction a with
  | nil => simp [Store.lookup]
  | cons p rest ih =>
    by_cases hp : p.1 = k
    · simp [Store.lookup, hp]
    · simpa [Store.lookup, hp] using ih

/-- The loop of _read_jsonl restricted to the decodable lines. -/
def loadResultsFrom (acc : Store ResultRecord) :
    List ResultRecord → Store ResultRecord
  | [] => acc
  | r :: t =>
    loadResultsFrom (acc.insert (result_key r.file r.source r.mt_output) r) t

theorem readResultsFrom_eq_filterMap (acc : Store ResultRecord)
    (ls : List (Option ResultRecord)) :
    readResultsFrom acc ls = loadResultsFrom acc (ls.filterMap id) := by
  induction ls generalizing acc with
  | nil => rfl
  | cons o t ih =>
    cases o with
    | none => simpa [readResultsFrom, List.filterMap_cons] using ih acc
    | some r =>
      simp [readResultsFrom, List.filterMap_cons, loadResultsFrom, ih]

theorem loadResultsFrom_values (s : Store ResultRecord) :
    ∀ acc : Store ResultRecord,
    (∀ p ∈ s, p.1 = result_key p.2.file p.2.source p.2.mt_output) →
    s.keys.Nodup →
    (∀ k ∈ s.keys, acc.lookup k = none) →
    loadResultsFrom acc s.values = acc ++ s := by
  induction s with
  | nil => intro acc _ _ _; simp [loadResultsFrom, Store.values]
  | cons p t ih =>
    intro acc hwf hnd hdisj
    obtain ⟨k, r⟩ := p
    have hk : k = result_key r.file r.source r.mt_output :=
      hwf (k, r) (List.mem_cons_self _ _)
    have hvals : Store.values ((k, r) :: t) = r :: Store.values t := rfl
    rw [hvals]
    have hacc : acc.lookup k = none :=
      hdisj k (by simp [Store.keys])
    have hknot : k ∉ Store.keys t := by
      have := hnd
      simp only [Store.keys, List.map_cons, List.nodup_cons] at this
      exact this.1
    have step : loadResultsFrom acc (r :: Store.values t) =
        loadResultsFrom (acc.insert k r) (Store.values t) := by
      rw [loadResultsFrom, ← hk]
    rw [step, Store.insert_of_lookup_eq_none acc k r hacc]
    rw [ih (acc ++ [(k, r)])
      (fun p hp => hwf p (List.mem_cons_of_mem _ hp))
      (by
        have := hnd
        simp only [Store.keys, List.map_cons, List.nodup_cons] at this
        exact this.2)
      (by
        intro k' hk'
        rw [Store.lookup_append]
        have h1 : acc.lookup k' = none := hdisj k' (by simp [Store.keys]; right; simpa [Store.keys] using hk')
        have h2 : k' ≠ k := fun he => hknot (he ▸ hk')
        simp [h1, Store.lookup, Ne.symm h2])]
    simp

theorem filterMap_id_map_some {α : Type} (l : List α) :
    (l.map some).filterMap id = l := by
  induction l with
  | nil => rfl
  | cons a t ih => simp [List.filterMap_cons, ih]

/-- C4: flushing the result store with _write_jsonl and reloading with
_read_jsonl reconstructs the same mapping, and this stays true when
arbitrary undecodable lines are present in the loaded file: they are
dropped and the decodable lines reconstruct the store.  The store is
assumed well formed, as every store built by the program is: its keys
are pairwise distinct and each entry is keyed by the composite key of
its record. -/
theorem c4_write_read_roundtrip (s : Store ResultRecord)
    (hnd : s.keys.Nodup)
    (hwf : ∀ p ∈ s, p.1 = result_key p.2.file p.2.source p.2.mt_output) :
    read_jsonl_results (write_jsonl s) = s
    ∧ ∀ ls : List (Option ResultRecord),
        ls.filterMap id = (write_jsonl s).filterMap id →
        read_jsonl_results ls = s := by
  have main : ∀ ls : List (Option ResultRecord),
      ls.filterMap id = s.values → read_jsonl_results ls = s := by
    intro ls hc
    rw [read_jsonl_results, readResultsFrom_eq_filterMap, hc,
      loadResultsFrom_values s [] hwf hnd (by intro k _; rfl)]
    simp
  have hw : (write_jsonl s).filterMap id = s.values :=
    filterMap_id_map_some s.values
  exact ⟨main (write_jsonl s) hw, fun ls hls => main ls (hls.trans hw)⟩

/-- Witness for C4 at a concrete two-record store with a corrupted
line inserted between the two written lines. -/
theorem c4_witness :
    ((Store.keys [(result_key ("a.txt") ("s") ("m"),
        builtRecord ("a.txt") ("s") ("m") none (1/2 : ℚ)),
      (result_key ("b.txt") ("s2") ("m2"),
        builtRecord ("b.txt") ("s2") ("m2") none (1/2 : ℚ))]).Nodup
      ∧ (∀ p ∈ ([(result_key ("a.txt") ("s") ("m"),
            builtRecord ("a.txt") ("s") ("m") none (1/2 : ℚ)),
          (result_key ("b.txt") ("s2") ("m2"),
            builtRecord ("b.txt") ("s2") ("m2") none (1/2 : ℚ))] :
              Store ResultRecord),
          p.1 = result_key p.2.file p.2.source p.2.mt_output))
    ∧ (read_jsonl_results (write_jsonl
          [(result_key ("a.txt") ("s") ("m"),
            builtRecord ("a.txt") ("s") ("m") none (1/2 : ℚ)),
          (result_key ("b.txt") ("s2") ("m2"),
            builtRecord ("b.txt") ("s2") ("m2") none (1/2 : ℚ))]) =
        [(result_key ("a.txt") ("s") ("m"),
          builtRecord ("a.txt") ("s") ("m") none (1/2 : ℚ)),
        (result_key ("b.txt") ("s2") ("m2"),
          builtRecord ("b.txt") ("s2") ("m2") none (1/2 : ℚ))]
      ∧ ∀ ls : List (Option ResultRecord),
          ls.filterMap id = (write_jsonl
            [(result_key ("a.txt") ("s") ("m"),
              builtRecord ("a.txt") ("s") ("m") none (1/2 : ℚ)),
            (result_key ("b.txt") ("s2") ("m2"),
              builtRecord ("b.txt") ("s2") ("m2") none (1/2 : ℚ))]).filterMap id →
          read_jsonl_results ls =
            [(result_key ("a.txt") ("s") ("m"),
              builtRecord ("a.txt") ("s") ("m") none (1/2 : ℚ)),
            (result_key ("b.txt") ("s2") ("m2"),
              builtRecord ("b.txt") ("s2") ("m2") none (1/2 : ℚ))]) :=
  ⟨⟨by decide, by decide⟩,
    c4_write_read_roundtrip
      [(result_key ("a.txt") ("s") ("m"),
        builtRecord ("a.txt") ("s") ("m") none (1/2 : ℚ)),
      (result_key ("b.txt") ("s2") ("m2"),
        builtRecord ("b.txt") ("s2") ("m2") none (1/2 : ℚ))]
      (by decide) (by decide)⟩

/-- C1: the code contradicts the claim for skipped stores loaded from
the persisted log.  _read_jsonl keys every loaded record by
file:hash(source+mt_output), and a skipped record has neither field, so
its loaded key is the file name followed by the hash of the empty
string (here a.txt:0), while the removal in process_file deletes the
key equal to the bare basename (a.txt).  Reprocessing a file that
became valid therefore adds a result record but leaves the loaded
skipped entry in place, where the claim (and the stated intent of the
spec, keyed by file name only) says the entry is removed.  Within one
process run, where skipped entries are keyed by bare basename, the
removal does work; the failure is specific to reloaded stores. -/
theorem c1_loaded_skipped_entry_survives :
    (read_jsonl_skipped
        [some { file := "a.txt", reason := "Insufficient lines",
                lines := ["hello"] }]).keys = ["a.txt:0"]
    ∧ (process_file (fun _ _ _ => Except.ok (1/2 : ℚ))
        ⟨[], read_jsonl_skipped
          [some { file := "a.txt", reason := "Insufficient lines",
                  lines := ["hello"] }]⟩
        ("a.txt") (.ok ["hello", "world"])).all_results.keys.length = 1
    ∧ (process_file (fun _ _ _ => Except.ok (1/2 : ℚ))
        ⟨[], read_jsonl_skipped
          [some { file := "a.txt", reason := "Insufficient lines",
                  lines := ["hello"] }]⟩
        ("a.txt") (.ok ["hello", "world"])).skipped_records =
      read_jsonl_skipped
        [some { file := "a.txt", reason := "Insufficient lines",
                lines := ["hello"] }]
    ∧ read_jsonl_skipped
        [some { file := "a.txt", reason := "Insufficient lines",
                lines := ["hello"] }] ≠ [] := by
  refine ⟨by decide, by decide, by decide, by decide⟩

/-- Counterexample to C6 as stated: the key hashes the concatenation
of source and MT output, so two runs whose contents differ but whose
concatenations coincide (source ab with MT c, then source a with MT
bc) derive the very same key; the second run overwrites the first
record instead of adding a new entry, for any hash function. -/
theorem c6_counterexample :
    ("ab", "c") ≠ ("a", "bc")
    ∧ result_key ("a.txt") ("ab") ("c") = result_key ("a.txt") ("a") ("bc")
    ∧ (process_file (fun _ _ _ => Except.ok (0 : ℚ))
        (process_file (fun _ _ _ => Except.ok (0 : ℚ)) ⟨[], []⟩
          ("a.txt") (.ok ["ab", "c"]))
        ("a.txt") (.ok ["a", "bc"])).all_results.keys.length = 1
    ∧ ((process_file (fun _ _ _ => Except.ok (0 : ℚ))
        (process_file (fun _ _ _ => Except.ok (0 : ℚ)) ⟨[], []⟩
          ("a.txt") (.ok ["ab", "c"]))
        ("a.txt") (.ok ["a", "bc"])).all_results.lookup
          (result_key ("a.txt") ("ab") ("c"))).map (fun r => r.source) =
      some ("a") := by
  refine ⟨by decide, by decide, by decide, by decide⟩

/-! ### Decimal rendering of integers is injective.

The composite key renders the content hash with str(int); these lemmas
show the rendering is injective, so distinct hashes give distinct keys. -/

theorem digitChar_injOn : ∀ a < 10, ∀ b < 10,
    Nat.digitChar a = Nat.digitChar b → a = b := by decide

theorem digitChar_ne_zero_char : ∀ a < 10, a ≠ 0 → Nat.digitChar a ≠ '0' := by
  decide

theorem digitChar_ne_dash : ∀ a < 10, Nat.digitChar a ≠ '-' := by decide

theorem toDigitsCore_ten (fuel : ℕ) : ∀ (n : ℕ) (ds : List Char), 0 < n →
    n < 2 ^ fuel →
    Nat.toDigitsCore 10 fuel n ds =
      ((Nat.digits 10 n).map Nat.digitChar).reverse ++ ds := by
  induction fuel with
  | zero =>
    intro n ds h0 hf
    simp at hf
    omega
  | succ fuel ih =>
    intro n ds h0 hf
    have hd : Nat.digits 10 n = n % 10 :: Nat.digits 10 (n / 10) :=
      Nat.digits_def' (by norm_num) h0
    by_cases hn : n / 10 = 0
    · rw [hd, hn]
      simp [Nat.toDigitsCore, hn]
    · have h10 : n / 10 < 2 ^ fuel := by
        have hle : n / 10 ≤ n / 2 := Nat.div_le_div_left (by norm_num) (by norm_num)
        have h2 : n / 2 < 2 ^ fuel := by
          rw [Nat.div_lt_iff_lt_mul (by norm_num : 0 < 2)]
          rw [pow_succ] at hf
          omega
        omega
      have hstep : Nat.toDigitsCore 10 (fuel + 1) n ds =
          Nat.toDigitsCore 10 fuel (n / 10) (Nat.digitChar (n % 10) :: ds) := by
        simp [Nat.toDigitsCore, hn]
      rw [hstep, ih (n / 10) _ (Nat.pos_of_ne_zero hn) h10, hd]
      simp

theorem toDigits_ten (n : ℕ) :
    Nat.toDigits 10 n =
      if n = 0 then ['0']
      else ((Nat.digits 10 n).map Nat.digitChar).reverse := by
  by_cases h : n = 0
  · subst h
    rfl
  · rw [if_neg h]
    have hlt : n < 2 ^ (n + 1) :=
      lt_of_lt_of_le (Nat.lt_two_pow n)
        (Nat.pow_le_pow_right (by norm_num) (Nat.le_succ n))
    have := toDigitsCore_ten (n + 1) n [] (Nat.pos_of_ne_zero h) hlt
    simpa [Nat.toDigits] using this

theorem map_digitChar_inj : ∀ (l1 l2 : List ℕ),
    (∀ x ∈ l1, x < 10) → (∀ x ∈ l2, x < 10) →
    l1.map Nat.digitChar = l2.map Nat.digitChar → l1 = l2 := by
  intro l1
  induction l1 with
  | nil =>
    intro l2 _ _ h
    cases l2 with
    | nil => rfl
    | cons b t => simp at h
  | cons a t1 ih =>
    intro l2 h1 h2 h
    cases l2 with
    | nil => simp at h
    | cons b t2 =>
      simp only [List.map_cons, List.cons.injEq] at h
      have ha : a < 10 := h1 a (List.mem_cons_self _ _)
      have hb : b < 10 := h2 b (List.mem_cons_self _ _)
      have hab : a = b := digitChar_injOn a ha b hb h.1
      have ht : t1 = t2 :=
        ih t2 (fun x hx => h1 x (List.mem_cons_of_mem _ hx))
          (fun x hx => h2 x (List.mem_cons_of_mem _ hx)) h.2
      rw [hab, ht]

theorem reverse_map_digits_ne_single_zero (n : ℕ) (hn : n ≠ 0) :
    ((Nat.digits 10 n).map Nat.digitChar).reverse ≠ ['0'] := by
  intro h
  have h2 : (Nat.digits 10 n).map Nat.digitChar = ['0'] := by
    have := congrArg List.reverse h
    simpa using this
  have hne : Nat.digits 10 n ≠ [] := Nat.digits_ne_nil_iff_ne_zero.mpr hn
  rcases hdig : Nat.digits 10 n with _ | ⟨d, t⟩
  · exact hne hdig
  · rw [hdig] at h2
    simp only [List.map_cons, List.cons.injEq, List.map_eq_nil_iff] at h2
    obtain ⟨hd0, ht⟩ := h2
    have hsing : Nat.digits 10 n = [d] := by rw [hdig, ht]
    have hnd : n = d := by
      have h1 := Nat.ofDigits_digits 10 n
      rw [hsing, Nat.ofDigits_singleton] at h1
      exact_mod_cast h1.symm
    have hd' : d ≠ 0 := by omega
    have hdlt : d < 10 :=
      Nat.digits_lt_base (by norm_num) (by rw [hdig]; exact List.mem_cons_self _ _)
    exact digitChar_ne_zero_char d hdlt hd' hd0

theorem natRepr_injective : Function.Injective Nat.repr := by
  intro m n h
  have hdig : Nat.toDigits 10 m = Nat.toDigits 10 n := congrArg String.data h
  rw [toDigits_ten, toDigits_ten] at hdig
  by_cases hm : m = 0 <;> by_cases hn : n = 0
  · rw [hm, hn]
  · rw [if_pos hm, if_neg hn] at hdig
    exact absurd hdig.symm (reverse_map_digits_ne_single_zero n hn)
  · rw [if_neg hm, if_pos hn] at hdig
    exact absurd hdig (reverse_map_digits_ne_single_zero m hm)
  · rw [if_neg hm, if_neg hn] at hdig
    have hmap : (Nat.digits 10 m).map Nat.digitChar =
        (Nat.digits 10 n).map Nat.digitChar :=
      List.reverse_injective hdig
    have : Nat.digits 10 m = Nat.digits 10 n :=
      map_digitChar_inj _ _
        (fun x hx => Nat.digits_lt_base (by norm_num) hx)
        (fun x hx => Nat.digits_lt_base (by norm_num) hx) hmap
    exact Nat.digits_inj_iff.mp this

theorem dash_not_mem_natRepr (n : ℕ) : '-' ∉ (Nat.repr n).data := by
  intro hmem
  have hmem' : '-' ∈ Nat.toDigits 10 n := hmem
  rw [toDigits_ten] at hmem'
  by_cases h : n = 0
  · rw [if_pos h] at hmem'
    simp at hmem'
  · rw [if_neg h] at hmem'
    rw [List.mem_reverse] at hmem'
    obtain ⟨d, hd, hdc⟩ := List.mem_map.mp hmem'
    exact digitChar_ne_dash d (Nat.digits_lt_base (by norm_num) hd) hdc

theorem intToString_injective : Function.Injective (fun i : ℤ => toString i) := by
  intro a b h
  simp only at h
  cases a with
  | ofNat m =>
    cases b with
    | ofNat n =>
      have : Nat.repr m = Nat.repr n := h
      rw [natRepr_injective this]
    | negSucc n =>
      exfalso
      have hdata : (Nat.repr m).data = '-' :: (Nat.repr (n + 1)).data :=
        congrArg String.data h
      exact dash_not_mem_natRepr m (hdata ▸ List.mem_cons_self _ _)
  | negSucc m =>
    cases b with
    | ofNat n =>
      exfalso
      have hdata : '-' :: (Nat.repr (m + 1)).data = (Nat.repr n).data :=
        congrArg String.data h
      exact dash_not_mem_natRepr n (hdata ▸ List.mem_cons_self _ _)
    | negSucc n =>
      have hdata : '-' :: (Nat.repr (m + 1)).data = '-' :: (Nat.repr (n + 1)).data :=
        congrArg String.data h
      have htail : (Nat.repr (m + 1)).data = (Nat.repr (n + 1)).data := by
        injection hdata
      have hmn : m + 1 = n + 1 := natRepr_injective (String.ext htail)
      have : m = n := by omega
      rw [this]

theorem result_key_ne_of_hash_ne (file src1 mt1 src2 mt2 : String)
    (h : contentHash (src1 ++ mt1) ≠ contentHash (src2 ++ mt2)) :
    result_key file src1 mt1 ≠ result_key file src2 mt2 := by
  intro he
  apply h
  have hdata := congrArg String.data he
  simp only [result_key, String.data_append, List.append_assoc] at hdata
  have h2 := List.append_cancel_left (List.append_cancel_left hdata)
  exact intToString_injective (String.ext h2)

/-- C6 (amended): reprocessing the same path with changed content
derives a distinct key provided the hash of the concatenated source
and MT output differs between the two runs (the claim as stated fails
when the concatenations coincide, and would also fail on a hash
collision); when moreover the new key is not already present, the
second processing appends a new entry, the entry for the prior content
remains untouched, and the store grows by one: stale entries are never
pruned. -/
theorem c6_changed_content_new_entry (scorer : Scorer) (st : SysState)
    (file_path : String) (raw1 raw2 : List String) (src1 mt1 src2 mt2 : String)
    (rest1 rest2 : List String) (q1 q2 : ℚ)
    (hl1 : nonBlankLines raw1 = src1 :: mt1 :: rest1)
    (hs1 : scorer src1 mt1 rest1.head? = .ok q1)
    (hl2 : nonBlankLines raw2 = src2 :: mt2 :: rest2)
    (hs2 : scorer src2 mt2 rest2.head? = .ok q2)
    (hhash : contentHash (src1 ++ mt1) ≠ contentHash (src2 ++ mt2))
    (hfresh : st.all_results.lookup
      (result_key (basename file_path) src2 mt2) = none) :
    result_key (basename file_path) src1 mt1 ≠
      result_key (basename file_path) src2 mt2
    ∧ (process_file scorer (process_file scorer st file_path (.ok raw1))
        file_path (.ok raw2)).all_results.lookup
          (result_key (basename file_path) src1 mt1) =
      some (builtRecord file_path src1 mt1 rest1.head? q1)
    ∧ (process_file scorer (process_file scorer st file_path (.ok raw1))
        file_path (.ok raw2)).all_results.lookup
          (result_key (basename file_path) src2 mt2) =
      some (builtRecord file_path src2 mt2 rest2.head? q2)
    ∧ (process_file scorer (process_file scorer st file_path (.ok raw1))
        file_path (.ok raw2)).all_results.length =
      (process_file scorer st file_path (.ok raw1)).all_results.length + 1 := by
  have hkey : result_key (basename file_path) src1 mt1 ≠
      result_key (basename file_path) src2 mt2 :=
    result_key_ne_of_hash_ne (basename file_path) src1 mt1 src2 mt2 hhash
  have h1 := process_file_valid scorer st file_path raw1 src1 mt1 rest1 q1 hl1 hs1
  have h2 := process_file_valid scorer (process_file scorer st file_path (.ok raw1))
    file_path raw2 src2 mt2 rest2 q2 hl2 hs2
  have ha1 : (process_file scorer st file_path (.ok raw1)).all_results =
      st.all_results.insert (result_key (basename file_path) src1 mt1)
        (builtRecord file_path src1 mt1 rest1.head? q1) := by
    rw [h1]
  have ha2 : (process_file scorer (process_file scorer st file_path (.ok raw1))
      file_path (.ok raw2)).all_results =
      (process_file scorer st file_path (.ok raw1)).all_results.insert
        (result_key (basename file_path) src2 mt2)
        (builtRecord file_path src2 mt2 rest2.head? q2) := by
    rw [h2]
  have hprior : (process_file scorer st file_path (.ok raw1)).all_results.lookup
      (result_key (basename file_path) src2 mt2) = none := by
    rw [ha1, Store.lookup_insert_ne _ _ _ _ (Ne.symm hkey)]
    exact hfresh
  refine ⟨hkey, ?_, ?_, ?_⟩
  · rw [ha2, Store.lookup_insert_ne _ _ _ _ hkey, ha1]
    exact Store.lookup_insert_self _ _ _
  · rw [ha2]
    exact Store.lookup_insert_self _ _ _
  · rw [ha2]
    exact Store.length_insert_of_lookup_eq_none _ _ _ hprior

/-- Witness for C6 at two concrete contents with distinct hashes. -/
theorem c6_witness :
    (nonBlankLines ["s1", "m1"] = "s1" :: "m1" :: []
      ∧ (fun _ _ _ => Except.ok (0 : ℚ) : Scorer) "s1" "m1"
          (List.head? ([] : List String)) = .ok (0 : ℚ)
      ∧ nonBlankLines ["s2", "m2"] = "s2" :: "m2" :: []
      ∧ (fun _ _ _ => Except.ok (0 : ℚ) : Scorer) "s2" "m2"
          (List.head? ([] : List String)) = .ok (0 : ℚ)
      ∧ contentHash ("s1" ++ "m1") ≠ contentHash ("s2" ++ "m2")
      ∧ (Store.lookup ([] : Store ResultRecord)
          (result_key (basename ("a.txt")) ("s2") ("m2"))) = none)
    ∧ (result_key (basename ("a.txt")) ("s1") ("m1") ≠
        result_key (basename ("a.txt")) ("s2") ("m2")
      ∧ (process_file (fun _ _ _ => Except.ok (0 : ℚ))
          (process_file (fun _ _ _ => Except.ok (0 : ℚ)) ⟨[], []⟩
            ("a.txt") (.ok ["s1", "m1"]))
          ("a.txt") (.ok ["s2", "m2"])).all_results.lookup
            (result_key (basename ("a.txt")) ("s1") ("m1")) =
        some (builtRecord ("a.txt") ("s1") ("m1") none (0 : ℚ))
      ∧ (process_file (fun _ _ _ => Except.ok (0 : ℚ))
          (process_file (fun _ _ _ => Except.ok (0 : ℚ)) ⟨[], []⟩
            ("a.txt") (.ok ["s1", "m1"]))
          ("a.txt") (.ok ["s2", "m2"])).all_results.lookup
            (result_key (basename ("a.txt")) ("s2") ("m2")) =
        some (builtRecord ("a.txt") ("s2") ("m2") none (0 : ℚ))
      ∧ (process_file (fun _ _ _ => Except.ok (0 : ℚ))
          (process_file (fun _ _ _ => Except.ok (0 : ℚ)) ⟨[], []⟩
            ("a.txt") (.ok ["s1", "m1"]))
          ("a.txt") (.ok ["s2", "m2"])).all_results.length =
        (process_file (fun _ _ _ => Except.ok (0 : ℚ)) ⟨[], []⟩
          ("a.txt") (.ok ["s1", "m1"])).all_results.length + 1) :=
  ⟨⟨by decide, rfl, by decide, rfl, by decide, by decide⟩,
    c6_changed_content_new_entry (fun _ _ _ => Except.ok (0 : ℚ)) ⟨[], []⟩
      ("a.txt") ["s1", "m1"] ["s2", "m2"] ("s1") ("m1") ("s2") ("m2") [] []
      (0 : ℚ) (0 : ℚ) (by decide) rfl (by decide) rfl (by decide) (by decide)⟩
